import Mathlib

/-!
Shallow embedding of `src/app/server.py` (koninico/bingo): the bingo
Event State Engine.  The durable state is modelled by `Store`
(`latest.json` slot plus the per-event archival JSON files); each HTTP
handler becomes a pure function `Store → Store × Resp`.  Timestamps are
opaque strings supplied as parameters; `random.choice` is an injected
choice index; a filesystem write that the source wraps in
`try/except: pass` gets an injected success flag.
-/

/-- One bingo event state, mirroring the dict built by `new_event`
    (`server.py` lines 65-90).  `ui`/`rules` are opaque configuration
    blocks never touched by the engine and are omitted.  `status` is the
    raw string ("ready"/"running"/"ended"), as in the source, since
    `POST /api/state` can store arbitrary values. -/
structure Event where
  eventId : String
  eventName : String
  winnersTarget : Int
  createdAt : Option String
  status : String
  startedAt : Option String
  endedAt : Option String
  currentNumber : Option Nat
  currentLabel : Option String
  drawnOrder : List Nat
  remainingCount : Nat
  eventFile : Option String
  deriving DecidableEq

/-- The durable storage: the `latest.json` slot (`none` = file absent)
    and the archival event files under `data/`, keyed by path. -/
structure Store where
  latest : Option Event
  files : List (String × Event)
  deriving DecidableEq

/-- A JSON response from a handler: `ok` (with the state payload the
    source echoes back, when any), `err msg`, or `exn` for an uncaught
    Python exception (no response sent). -/
inductive Resp where
  | ok (state : Option Event)
  | err (msg : String)
  | exn
  deriving DecidableEq

/-- `bingo_label` (`server.py` lines 31-43): column label B/I/N/G/O for
    1..75, bare string fallback outside that range. -/
def bingo_label (n : Nat) : String :=
  if 1 ≤ n ∧ n ≤ 15 then "B-" ++ toString n
  else if 16 ≤ n ∧ n ≤ 30 then "I-" ++ toString n
  else if 31 ≤ n ∧ n ≤ 45 then "N-" ++ toString n
  else if 46 ≤ n ∧ n ≤ 60 then "G-" ++ toString n
  else if 61 ≤ n ∧ n ≤ 75 then "O-" ++ toString n
  else toString n

/-- `make_remaining_set` (`server.py` lines 112-115): the numbers of
    1..75 not present in `drawnOrder`.  The Python version returns a
    set that `handle_api_draw` sorts before choosing; we return that
    sorted enumeration directly (ascending, duplicate-free).  Entries of
    `drawnOrder` outside 1..75 remove nothing, as in the source. -/
def make_remaining_set (drawn : List Nat) : List Nat :=
  (List.range' 1 75).filter (fun n => !(drawn.contains n))

/-- `require_running` (`server.py` lines 118-119). -/
def require_running (st : Event) : Bool :=
  st.status == "running"

/-- `save_latest` (`server.py` lines 55-57): overwrite the
    `latest.json` slot unconditionally. -/
def save_latest (st : Event) (s : Store) : Store :=
  { s with latest := some st }

/-- Write (create or overwrite) one archival file. -/
def setFile (path : String) (st : Event) : List (String × Event) → List (String × Event)
  | [] => [(path, st)]
  | (p, e) :: rest => if p = path then (p, st) :: rest else (p, e) :: setFile path st rest

/-- `persist_state` (`server.py` lines 100-109): update `latest.json`,
    then best-effort write the event's own archival file.  `archOk`
    injects the success of that second write; the source swallows its
    failure (`try/except: pass`), so the function has no error outcome
    either way. -/
def persist_state (archOk : Bool) (st : Event) (s : Store) : Store :=
  let s1 := save_latest st s
  match st.eventFile with
  | some f =>
      if f = "" then s1
      else if archOk then { s1 with files := setFile f st s1.files } else s1
  | none => s1

/-- Python `str.strip()`: drop whitespace from both ends. -/
def pyStrip (s : String) : String :=
  String.mk (((s.data.dropWhile Char.isWhitespace).reverse.dropWhile
    Char.isWhitespace).reverse)

/-- `safe_name` (`server.py` lines 26-28): keep only alphanumerics,
    `-` and `_`; empty result falls back to "event". -/
def safe_name (s : String) : String :=
  let t := pyStrip (String.mk (s.data.filter
    (fun c => c.isAlphanum || c = '-' || c = '_')))
  if t = "" then "event" else t

/-- `new_event` (`server.py` lines 60-98): build a fresh `ready` state,
    write its archival file, update `latest.json`, return the state.
    `nowId` stands for `now_id()` and `nowIso` for the
    `datetime.now().isoformat` timestamp. -/
def new_event (nowId nowIso : String) (event_name : String) (winners_target : Int)
    (s : Store) : Store × Event :=
  let event_file := "data/" ++ nowId ++ "_" ++ safe_name event_name ++ ".json"
  let st : Event :=
    { eventId := nowId
      eventName := event_name
      winnersTarget := winners_target
      createdAt := some nowIso
      status := "ready"
      startedAt := none
      endedAt := none
      currentNumber := none
      currentLabel := none
      drawnOrder := []
      remainingCount := 75
      eventFile := some event_file }
  let s1 := { s with files := setFile event_file st s.files }
  (save_latest st s1, st)

/-- JSON values as they arrive in a request body (arrays only keep
    their length, objects only their key set: that is all the
    handlers inspect). -/
inductive JsonVal where
  | jnull
  | jbool (b : Bool)
  | jnum (n : Int)
  | jstr (s : String)
  | jarr (len : Nat)
  | jobj (fields : List String)
  deriving DecidableEq

/-- Python truthiness of a JSON value. -/
def pyTruthy : JsonVal → Bool
  | .jnull => false
  | .jbool b => b
  | .jnum n => n != 0
  | .jstr s => s ≠ ""
  | .jarr len => len ≠ 0
  | .jobj fields => !fields.isEmpty

/-- Python `a or b`. -/
def pyOr (a b : JsonVal) : JsonVal :=
  if pyTruthy a then a else b

/-- Python `str(v)` for a JSON value. -/
def pyStr : JsonVal → String
  | .jnull => "None"
  | .jbool b => if b then "True" else "False"
  | .jnum n => toString n
  | .jstr s => s
  | .jarr _ => "[...]"
  | .jobj _ => "\x7b...\x7d"

/-- Python `int(s)` on a string: optional sign then digits, surrounding
    whitespace ignored; `none` models the `ValueError`. -/
def pyIntOfString (s : String) : Option Int :=
  let t := (s.data.dropWhile Char.isWhitespace).reverse.dropWhile Char.isWhitespace
    |>.reverse
  let core := match t with
    | '-' :: rest => rest
    | '+' :: rest => rest
    | l => l
  let neg : Bool := match t with
    | '-' :: _ => true
    | _ => false
  if core = [] then none
  else if core.all Char.isDigit then
    let v : Int := Int.ofNat (core.foldl (fun acc c => acc * 10 + (c.toNat - 48)) 0)
    some (if neg then -v else v)
  else none

/-- Python `int(v)` for a JSON value; `none` models the
    `TypeError`/`ValueError` the call raises on non-numeric input. -/
def pyInt : JsonVal → Option Int
  | .jnum n => some n
  | .jbool b => some (if b then 1 else 0)
  | .jstr s => pyIntOfString s
  | _ => none

/-- `handle_api_new` (`server.py` lines 216-224): normalise
    `eventName` (str, strip, default "BingoEvent") and `winnersTarget`
    (`int(body.get("winnersTarget", 0) or 0)`, clamp negatives to 0),
    then create the event.  An `int()` failure propagates as an
    uncaught exception (`Resp.exn`), leaving the store untouched. -/
def handle_api_new (nowId nowIso : String)
    (eventNameArg winnersTargetArg : Option JsonVal) (s : Store) : Store × Resp :=
  let nameRaw := pyStrip (pyStr (eventNameArg.getD (.jstr "")))
  let event_name := if nameRaw = "" then "BingoEvent" else nameRaw
  match pyInt (pyOr (winnersTargetArg.getD (.jnum 0)) (.jnum 0)) with
  | none => (s, .exn)
  | some w =>
      let winners_target := if w < 0 then 0 else w
      let (s1, st) := new_event nowId nowIso event_name winners_target s
      (s1, .ok (some st))

/-- `handle_api_save_state` validation (`server.py` lines 226-244):
    the body's `state` must merely be a dict (`isinstance(state, dict)`);
    any dict is then saved unconditionally.  Returns the accepted value. -/
def handle_api_save_state (bodyState : Option JsonVal) : Except String JsonVal :=
  match bodyState with
  | some (.jobj fields) => .ok (.jobj fields)
  | _ => .error "state is required"

/-- A well-formed Event object in the sense of the spec (section 3 data
    model): a JSON object carrying every required Event field.  This
    definition follows the spec's words, for comparison with the
    source-derived `handle_api_save_state`. -/
def specWellFormedEvent (v : JsonVal) : Bool :=
  match v with
  | .jobj fields =>
      ["eventId", "eventName", "winnersTarget", "status", "createdAt", "startedAt",
       "endedAt", "drawnOrder", "currentNumber", "currentLabel",
       "remainingCount"].all (fun k => fields.contains k)
  | _ => false

/-- `handle_api_start` (`server.py` lines 246-261). -/
def handle_api_start (nowIso : String) (archOk : Bool) (s : Store) : Store × Resp :=
  match s.latest with
  | none => (s, .err "no event")
  | some st =>
      if st.status = "ended" then (s, .err "event ended")
      else if st.status ≠ "running" then
        let st' := { st with status := "running", startedAt := some nowIso }
        (persist_state archOk st' s, .ok (some st'))
      else (s, .ok (some st))

/-- `handle_api_draw` (`server.py` lines 264-291).  `random.choice`
    over the sorted remaining list is modelled by the injected index
    `c`, reduced mod the list length (any uniformly random index is
    some such `c`). -/
def handle_api_draw (c : Nat) (archOk : Bool) (s : Store) : Store × Resp :=
  match s.latest with
  | none => (s, .err "no event")
  | some st =>
      if require_running st then
        let remaining := make_remaining_set st.drawnOrder
        if remaining.isEmpty then (s, .err "no remaining numbers")
        else
          let n := remaining.getD (c % remaining.length) 0
          let drawn := st.drawnOrder ++ [n]
          let st' := { st with
            drawnOrder := drawn
            currentNumber := some n
            currentLabel := some (bingo_label n)
            remainingCount := (make_remaining_set drawn).length }
          (persist_state archOk st' s, .ok (some st'))
      else (s, .err "not running")

/-- `handle_api_undo` (`server.py` lines 294-326): pop the last drawn
    number, rederive `currentNumber`/`currentLabel` from the new last
    element (null when empty), recompute `remainingCount`. -/
def handle_api_undo (archOk : Bool) (s : Store) : Store × Resp :=
  match s.latest with
  | none => (s, .err "no event")
  | some st =>
      if require_running st then
        if st.drawnOrder.isEmpty then (s, .err "nothing to undo")
        else
          let drawn := st.drawnOrder.dropLast
          let st' := { st with
            drawnOrder := drawn
            currentNumber := drawn.getLast?
            currentLabel := drawn.getLast?.map bingo_label
            remainingCount := (make_remaining_set drawn).length }
          (persist_state archOk st' s, .ok (some st'))
      else (s, .err "not running")

/-- `handle_api_end` (`server.py` lines 329-343): already-`ended`
    states are echoed back unchanged without persisting; otherwise set
    `status`/`endedAt` and persist. -/
def handle_api_end (nowIso : String) (archOk : Bool) (s : Store) : Store × Resp :=
  match s.latest with
  | none => (s, .err "no event")
  | some st =>
      if st.status = "ended" then (s, .ok (some st))
      else
        let st' := { st with status := "ended", endedAt := some nowIso }
        (persist_state archOk st' s, .ok (some st'))

/-- Basename of a path string (Python `Path(p).name`): the part after
    the last `/`. -/
def pathName (p : String) : String :=
  String.mk ((p.data.reverse.takeWhile (fun c => c ≠ '/')).reverse)

/-- `handle_api_delete` (`server.py` lines 423-471).  `resolveOk`
    stands for the filesystem check that the resolved path lies under
    `data/` (it depends on `Path.resolve`, i.e. the real filesystem);
    `unlinkOk` injects the success of the final `p.unlink()`.  The
    `LATEST_FILE.unlink()` clearing the slot is modelled as succeeding
    (the source swallows an OS failure of it defensively). -/
def handle_api_delete (resolveOk : String → Bool) (unlinkOk : Bool)
    (eventFileArg : Option JsonVal) (s : Store) : Store × Resp :=
  match eventFileArg with
  | some (.jstr f) =>
      if f = "" then (s, .err "eventFile is required")
      else if !(resolveOk f) then (s, .err "invalid path")
      else if pathName f = "latest.json" then (s, .err "cannot delete latest.json")
      else if (s.files.lookup f).isNone then (s, .err "file not found")
      else
        let s1 :=
          match s.latest with
          | some st => if st.eventFile = some f then { s with latest := none } else s
          | none => s
        if unlinkOk then ({ s1 with files := s1.files.filter (fun pe => pe.1 ≠ f) }, .ok none)
        else (s1, .err "failed to delete")
  | _ => (s, .err "eventFile is required")

/-- Fold a list of draw choices over the store, keeping each draw's
    resulting store (the scenario "draw × n"). -/
def drawSeq (archOk : Bool) (cs : List Nat) (s : Store) : Store :=
  cs.foldl (fun st c => (handle_api_draw c archOk st).1) s

/-- The spec's section 3 invariant on the draw history: no duplicates
    and every entry in 1..75. -/
def DrawnInv (d : List Nat) : Prop :=
  d.Nodup ∧ ∀ n ∈ d, n ∈ List.range' 1 75

/-- The spec's section 3 derived-cache consistency: `currentNumber`/
    `currentLabel` match the last drawn number, `remainingCount`
    matches the pool size. -/
def CacheConsistent (e : Event) : Prop :=
  e.currentNumber = e.drawnOrder.getLast? ∧
  e.currentLabel = e.drawnOrder.getLast?.map bingo_label ∧
  e.remainingCount = (make_remaining_set e.drawnOrder).length

/-- Project the state payload out of a response. -/
def respState : Resp → Option Event
  | .ok st => st
  | _ => none

/-! ### Number-pool lemmas -/

theorem mem_make_remaining_set {d : List Nat} {n : Nat} :
    n ∈ make_remaining_set d ↔ n ∈ List.range' 1 75 ∧ n ∉ d := by
  simp [make_remaining_set, List.mem_filter]

theorem range75_nodup : (List.range' 1 75).Nodup := by decide

theorem make_remaining_set_nodup (d : List Nat) : (make_remaining_set d).Nodup :=
  List.Nodup.filter _ range75_nodup

theorem filter_mem_perm {d : List Nat} (hd : DrawnInv d) :
    List.Perm ((List.range' 1 75).filter (fun n => d.contains n)) d := by
  apply List.Subperm.antisymm
  · apply List.Nodup.subperm (List.Nodup.filter _ range75_nodup)
    intro x hx
    simp [List.mem_filter] at hx
    exact hx.2
  · apply List.Nodup.subperm hd.1
    intro x hx
    simp [List.mem_filter]
    exact ⟨by simpa using hd.2 x hx, hx⟩

theorem length_make_remaining_set {d : List Nat} (hd : DrawnInv d) :
    (make_remaining_set d).length = 75 - d.length := by
  have key := List.length_eq_length_filter_add (l := List.range' 1 75)
    (fun n => d.contains n)
  have hperm := (filter_mem_perm hd).length_eq
  have h75 : (List.range' 1 75).length = 75 := by simp
  have hmr : (make_remaining_set d).length
      = ((List.range' 1 75).filter (fun n => !(d.contains n))).length := rfl
  rw [hmr]
  omega

theorem make_remaining_set_ne_empty {d : List Nat} (hd : DrawnInv d)
    (hlen : d.length < 75) : ¬ (make_remaining_set d).isEmpty := by
  have h := length_make_remaining_set hd
  intro hemp
  rw [List.isEmpty_iff] at hemp
  rw [hemp] at h
  simp at h
  omega

theorem perm_of_full {d : List Nat} (hd : DrawnInv d) (hlen : d.length = 75) :
    List.Perm d (List.range' 1 75) := by
  have hsub : List.Subperm d (List.range' 1 75) :=
    hd.1.subperm (fun x hx => hd.2 x hx)
  obtain ⟨l, hpl, hsl⟩ := hsub
  have hll : l.length = 75 := by rw [hpl.length_eq, hlen]
  have : l = List.range' 1 75 := hsl.eq_of_length_le (by simp [hll])
  rw [← this]
  exact hpl.symm

theorem make_remaining_set_nil_of_full {d : List Nat} (hd : DrawnInv d)
    (hlen : d.length = 75) : make_remaining_set d = [] := by
  have hp := perm_of_full hd hlen
  unfold make_remaining_set
  rw [List.filter_eq_nil_iff]
  intro a ha
  simp
  exact hp.mem_iff.mpr ha

theorem DrawnInv.push {d : List Nat} {n : Nat} (hd : DrawnInv d)
    (hn : n ∈ make_remaining_set d) : DrawnInv (d ++ [n]) := by
  obtain ⟨hrange, hnotin⟩ := mem_make_remaining_set.mp hn
  constructor
  · simp [List.nodup_append, hd.1, hnotin]
  · intro m hm
    rcases List.mem_append.mp hm with h | h
    · exact hd.2 m h
    · simp at h
      rw [h]
      exact hrange

/-! ### Persistence lemmas -/

theorem persist_state_latest (aok : Bool) (st : Event) (s : Store) :
    (persist_state aok st s).latest = some st := by
  unfold persist_state save_latest
  cases st.eventFile
  · simp
  · simp
    split_ifs <;> rfl

theorem lookup_setFile (f : String) (st : Event) :
    ∀ fs : List (String × Event), (setFile f st fs).lookup f = some st := by
  intro fs
  induction fs with
  | nil => simp [setFile, List.lookup]
  | cons pe rest ih =>
      obtain ⟨p, e⟩ := pe
      by_cases hp : p = f
      · subst hp
        simp [setFile, List.lookup]
      · have hfp : (f == p) = false := by
          simp only [beq_eq_false_iff_ne, ne_eq]
          intro h
          exact hp h.symm
        simp [setFile, hp, List.lookup, hfp, ih]

theorem lookup_filter_ne (f : String) :
    ∀ fs : List (String × Event),
      (fs.filter (fun pe => pe.1 ≠ f)).lookup f = none := by
  intro fs
  induction fs with
  | nil => simp
  | cons pe rest ih =>
      obtain ⟨p, e⟩ := pe
      by_cases hp : p = f
      · subst hp
        simp [List.filter_cons, ih]
        intro a b _ hne h
        exact hne h.symm
      · have hfp : (f == p) = false := by
          simp only [beq_eq_false_iff_ne, ne_eq]
          intro h
          exact hp h.symm
        simp [List.filter_cons, hp, List.lookup, hfp, ih]
        intro a b _ hne h
        exact hne h.symm

/-! ### Draw-step characterisation -/

/-- The state update a successful draw performs (the body of
    `handle_api_draw`'s success branch). -/
def drawnEvent (e : Event) (n : Nat) : Event :=
  { e with
    drawnOrder := e.drawnOrder ++ [n]
    currentNumber := some n
    currentLabel := some (bingo_label n)
    remainingCount := (make_remaining_set (e.drawnOrder ++ [n])).length }

theorem require_running_true {e : Event} (hr : e.status = "running") :
    require_running e = true := by
  simp [require_running, hr]

/-- The number a draw with choice index `c` picks: the element of the
    sorted remaining list at index `c` reduced mod its length
    (`random.choice(sorted(remaining))`). -/
def drawPick (e : Event) (c : Nat) : Nat :=
  (make_remaining_set e.drawnOrder).getD
    (c % (make_remaining_set e.drawnOrder).length) 0

theorem remaining_length_pos {e : Event}
    (hne : ¬ (make_remaining_set e.drawnOrder).isEmpty) :
    0 < (make_remaining_set e.drawnOrder).length := by
  cases hmr : make_remaining_set e.drawnOrder with
  | nil => rw [hmr] at hne; simp [List.isEmpty] at hne
  | cons a l => simp

theorem drawPick_mem {e : Event} (c : Nat)
    (hne : ¬ (make_remaining_set e.drawnOrder).isEmpty) :
    drawPick e c ∈ make_remaining_set e.drawnOrder := by
  have hidx : c % (make_remaining_set e.drawnOrder).length
      < (make_remaining_set e.drawnOrder).length :=
    Nat.mod_lt _ (remaining_length_pos hne)
  rw [drawPick, List.getD_eq_getElem _ _ hidx]
  exact List.getElem_mem _

theorem draw_step {s : Store} {e : Event} (c : Nat) (aok : Bool)
    (hl : s.latest = some e) (hr : e.status = "running")
    (hne : ¬ (make_remaining_set e.drawnOrder).isEmpty) :
    handle_api_draw c aok s =
      (persist_state aok (drawnEvent e (drawPick e c)) s,
       .ok (some (drawnEvent e (drawPick e c)))) := by
  have hne' : (make_remaining_set e.drawnOrder).isEmpty = false := by
    simpa using hne
  simp only [handle_api_draw, hl, require_running_true hr, hne', if_true,
    Bool.false_eq_true, if_false, drawnEvent, drawPick]

theorem draw_exhausted {s : Store} {e : Event} (c : Nat) (aok : Bool)
    (hl : s.latest = some e) (hr : e.status = "running")
    (hnil : make_remaining_set e.drawnOrder = []) :
    handle_api_draw c aok s = (s, .err "no remaining numbers") := by
  simp only [handle_api_draw, hl, require_running_true hr, hnil,
    List.isEmpty_nil, if_true]

theorem drawSeq_ok (aok : Bool) :
    ∀ (cs : List Nat) (s : Store) (e : Event),
      s.latest = some e → e.status = "running" → DrawnInv e.drawnOrder →
      e.drawnOrder.length + cs.length ≤ 75 →
      ∃ e', (drawSeq aok cs s).latest = some e' ∧ e'.status = "running" ∧
        DrawnInv e'.drawnOrder ∧
        e'.drawnOrder.length = e.drawnOrder.length + cs.length
  | [], s, e, hl, hr, hinv, _ => ⟨e, by simpa [drawSeq] using hl, hr, hinv, by simp⟩
  | c :: cs, s, e, hl, hr, hinv, hlen => by
      have hlt : e.drawnOrder.length < 75 := by
        simp at hlen
        omega
      have hne := make_remaining_set_ne_empty hinv hlt
      have heq := draw_step c aok hl hr hne
      have hn := drawPick_mem c hne
      set n := drawPick e c with hndef
      have hseq : drawSeq aok (c :: cs) s
          = drawSeq aok cs (handle_api_draw c aok s).1 := by
        simp [drawSeq]
      have hl' : (handle_api_draw c aok s).1.latest = some (drawnEvent e n) := by
        rw [heq]
        exact persist_state_latest aok _ s
      have hr' : (drawnEvent e n).status = "running" := hr
      have hinv' : DrawnInv (drawnEvent e n).drawnOrder := hinv.push hn
      have hlen' : (drawnEvent e n).drawnOrder.length + cs.length ≤ 75 := by
        simp [drawnEvent]
        simp at hlen
        omega
      obtain ⟨e', h1, h2, h3, h4⟩ := drawSeq_ok aok cs _ _ hl' hr' hinv' hlen'
      refine ⟨e', by rwa [hseq], h2, h3, ?_⟩
      rw [h4]
      simp [drawnEvent]
      omega

/-! ### Claim C1 -/

/-- C1: starting from an event made by `new_event` and then started via
    `handle_api_start`, any sequence of 75 draw requests (whatever the
    random choices) exhausts the pool: the resulting `drawnOrder` is a
    permutation of 1..75 (each number exactly once, no duplicates, no
    omissions) and has length 75, and one further draw fails with the
    pool-exhausted error, leaving the store (hence `drawnOrder`)
    unchanged. -/
theorem draws_exhaust_pool (s0 : Store) (id iso nm : String) (w : Int)
    (iso2 : String) (aok : Bool) (cs : List Nat) (hcs : cs.length = 75) :
    ∃ e,
      (drawSeq aok cs
        (handle_api_start iso2 aok (new_event id iso nm w s0).1).1).latest = some e ∧
      List.Perm e.drawnOrder (List.range' 1 75) ∧
      e.drawnOrder.length = 75 ∧
      ∀ (c2 : Nat) (aok2 : Bool),
        handle_api_draw c2 aok2
            (drawSeq aok cs
              (handle_api_start iso2 aok (new_event id iso nm w s0).1).1)
          = (drawSeq aok cs
              (handle_api_start iso2 aok (new_event id iso nm w s0).1).1,
             .err "no remaining numbers") := by
  have hstart : handle_api_start iso2 aok (new_event id iso nm w s0).1
      = (persist_state aok
           { (new_event id iso nm w s0).2 with
               status := "running", startedAt := some iso2 }
           (new_event id iso nm w s0).1,
         Resp.ok (some { (new_event id iso nm w s0).2 with
               status := "running", startedAt := some iso2 })) := rfl
  have hl2 : (handle_api_start iso2 aok (new_event id iso nm w s0).1).1.latest
      = some { (new_event id iso nm w s0).2 with
               status := "running", startedAt := some iso2 } := by
    rw [hstart]
    exact persist_state_latest aok _ _
  have hr2 : ({ (new_event id iso nm w s0).2 with
      status := "running", startedAt := some iso2 } : Event).status = "running" := rfl
  have hdo : ({ (new_event id iso nm w s0).2 with
      status := "running", startedAt := some iso2 } : Event).drawnOrder = [] := rfl
  have hinv2 : DrawnInv ({ (new_event id iso nm w s0).2 with
      status := "running", startedAt := some iso2 } : Event).drawnOrder := by
    rw [hdo]
    exact ⟨List.nodup_nil, by simp⟩
  have hlen2 : ({ (new_event id iso nm w s0).2 with
      status := "running", startedAt := some iso2 } : Event).drawnOrder.length
      + cs.length ≤ 75 := by
    rw [hdo, hcs]
    simp
  obtain ⟨e, h1, h2, h3, h4⟩ := drawSeq_ok aok cs _ _ hl2 hr2 hinv2 hlen2
  have hfull : e.drawnOrder.length = 75 := by
    rw [h4, hdo, hcs]
    simp
  have hperm := perm_of_full h3 hfull
  have hnil := make_remaining_set_nil_of_full h3 hfull
  refine ⟨e, h1, hperm, hfull, ?_⟩
  intro c2 aok2
  exact draw_exhausted c2 aok2 h1 h2 hnil

/-- Witness for C1 at a concrete run: create("Party", 3), start, then
    75 draws with choice index 0 each time. -/
theorem draws_exhaust_pool_witness :
    (List.replicate 75 0).length = 75 ∧
    ∃ e,
      (drawSeq true (List.replicate 75 0)
        (handle_api_start "t2" true
          (new_event "20260101_000000" "t" "Party" 3 ⟨none, []⟩).1).1).latest = some e ∧
      List.Perm e.drawnOrder (List.range' 1 75) ∧
      e.drawnOrder.length = 75 ∧
      ∀ (c2 : Nat) (aok2 : Bool),
        handle_api_draw c2 aok2
            (drawSeq true (List.replicate 75 0)
              (handle_api_start "t2" true
                (new_event "20260101_000000" "t" "Party" 3 ⟨none, []⟩).1).1)
          = (drawSeq true (List.replicate 75 0)
              (handle_api_start "t2" true
                (new_event "20260101_000000" "t" "Party" 3 ⟨none, []⟩).1).1,
             .err "no remaining numbers") :=
  ⟨by decide,
   draws_exhaust_pool ⟨none, []⟩ "20260101_000000" "t" "Party" 3 "t2" true
     (List.replicate 75 0) (by decide)⟩

/-! ### Claims C4, C5, C6, C7 -/

/-- A sample event in `ready` state with consistent caches, used by
    witnesses. -/
def sampleReady : Event :=
  ⟨"i", "n", 0, none, "ready", none, none, none, none, [], 75, none⟩

/-- A sample event already `ended`. -/
def sampleEnded : Event :=
  ⟨"i", "n", 0, none, "ended", none, some "te", some 7, some "B-7", [7], 74, none⟩

/-- A sample freshly started (running) event with consistent caches. -/
def sampleRunning : Event :=
  ⟨"i", "n", 0, none, "running", some "ts", none, none, none, [], 75, none⟩

/-- C4: a draw against a `ready` or `ended` event fails with the
    not-running error and leaves the store — hence every field of the
    event's state — unchanged. -/
theorem draw_not_running {s : Store} {e : Event} (c : Nat) (aok : Bool)
    (hl : s.latest = some e) (hst : e.status = "ready" ∨ e.status = "ended") :
    handle_api_draw c aok s = (s, .err "not running") := by
  have hrr : require_running e = false := by
    rcases hst with h | h <;> simp [require_running, h]
  simp [handle_api_draw, hl, hrr]

/-- Witness for C4: drawing on a ready event and on an ended event. -/
theorem draw_not_running_witness :
    (⟨some sampleReady, []⟩ : Store).latest = some sampleReady ∧
    sampleReady.status = "ready" ∧
    handle_api_draw 0 true ⟨some sampleReady, []⟩
      = (⟨some sampleReady, []⟩, .err "not running") ∧
    handle_api_draw 0 true ⟨some sampleEnded, []⟩
      = (⟨some sampleEnded, []⟩, .err "not running") :=
  ⟨rfl, rfl, draw_not_running 0 true rfl (Or.inl rfl),
   draw_not_running 0 true rfl (Or.inr rfl)⟩

/-- C5: with the random choice modelled as the injected index `c`,
    every element of the remaining pool is a possible outcome of a
    successful draw on a running event. -/
theorem draw_can_pick_any {s : Store} {e : Event} {n : Nat} (aok : Bool)
    (hl : s.latest = some e) (hr : e.status = "running")
    (hn : n ∈ make_remaining_set e.drawnOrder) :
    ∃ c e1, (handle_api_draw c aok s).2 = .ok (some e1) ∧
      e1.currentNumber = some n ∧ e1.drawnOrder = e.drawnOrder ++ [n] := by
  have hne : ¬ (make_remaining_set e.drawnOrder).isEmpty := by
    intro h
    rw [List.isEmpty_iff] at h
    rw [h] at hn
    simp at hn
  have hidx : (make_remaining_set e.drawnOrder).indexOf n
      < (make_remaining_set e.drawnOrder).length :=
    List.indexOf_lt_length.mpr hn
  have hpick : drawPick e ((make_remaining_set e.drawnOrder).indexOf n) = n := by
    rw [drawPick, Nat.mod_eq_of_lt hidx, List.getD_eq_getElem _ _ hidx]
    exact List.getElem_indexOf hidx
  refine ⟨(make_remaining_set e.drawnOrder).indexOf n, drawnEvent e n, ?_, rfl, rfl⟩
  rw [draw_step _ aok hl hr hne, hpick]

/-- Witness for C5: on a fresh running event, the number 42 (an element
    of the remaining pool) is a possible draw outcome. -/
theorem draw_can_pick_any_witness :
    (⟨some sampleRunning, []⟩ : Store).latest = some sampleRunning ∧
    sampleRunning.status = "running" ∧
    42 ∈ make_remaining_set sampleRunning.drawnOrder ∧
    ∃ c e1, (handle_api_draw c true ⟨some sampleRunning, []⟩).2 = .ok (some e1) ∧
      e1.currentNumber = some 42 ∧
      e1.drawnOrder = sampleRunning.drawnOrder ++ [42] :=
  ⟨rfl, rfl, by decide, draw_can_pick_any true rfl rfl (by decide)⟩

/-- C6: `end` is idempotent.  One call yields an `ended` state with
    `drawnOrder` and counters preserved; a second call (at any later
    time) returns the very same store and state, so `endedAt` is the
    same both times; and if the event was already ended the first call
    already changes nothing. -/
theorem end_idempotent {s : Store} {e : Event} (now1 now2 : String)
    (aok1 aok2 : Bool) (hl : s.latest = some e) :
    ∃ s1 e1, handle_api_end now1 aok1 s = (s1, .ok (some e1)) ∧
      handle_api_end now2 aok2 s1 = (s1, .ok (some e1)) ∧
      e1.status = "ended" ∧ e1.drawnOrder = e.drawnOrder ∧
      e1.remainingCount = e.remainingCount ∧
      e1.currentNumber = e.currentNumber ∧
      (e.status = "ended" → s1 = s ∧ e1 = e) := by
  by_cases hend : e.status = "ended"
  · refine ⟨s, e, ?_, ?_, hend, rfl, rfl, rfl, fun _ => ⟨rfl, rfl⟩⟩
    · simp [handle_api_end, hl, hend]
    · simp [handle_api_end, hl, hend]
  · refine ⟨persist_state aok1 { e with status := "ended", endedAt := some now1 } s,
      { e with status := "ended", endedAt := some now1 },
      ?_, ?_, rfl, rfl, rfl, rfl, fun h => absurd h hend⟩
    · simp [handle_api_end, hl, hend]
    · have hl1 := persist_state_latest aok1
        { e with status := "ended", endedAt := some now1 } s
      simp [handle_api_end, hl1]

/-- Witness for C6: ending a running event twice. -/
theorem end_idempotent_witness :
    (⟨some sampleRunning, []⟩ : Store).latest = some sampleRunning ∧
    ∃ s1 e1,
      handle_api_end "te1" true ⟨some sampleRunning, []⟩ = (s1, .ok (some e1)) ∧
      handle_api_end "te2" true s1 = (s1, .ok (some e1)) ∧
      e1.status = "ended" ∧ e1.drawnOrder = sampleRunning.drawnOrder ∧
      e1.remainingCount = sampleRunning.remainingCount ∧
      e1.currentNumber = sampleRunning.currentNumber ∧
      (sampleRunning.status = "ended" → s1 = ⟨some sampleRunning, []⟩ ∧ e1 = sampleRunning) :=
  ⟨rfl, end_idempotent "te1" "te2" true true rfl⟩

/-- An event carrying an archival file path, for the C7 witness. -/
def sampleWithFile : Event :=
  ⟨"i", "n", 0, none, "running", some "ts", none, none, none, [], 75,
   some "data/i_n.json"⟩

/-- C7: `persist_state` always updates the current-event slot to the
    given state; the archival (secondary) write has no error outcome
    (`persist_state` is total), a failed archival write (`aok = false`)
    is swallowed and leaves the archival files untouched while the
    current-slot write still happens, and a successful one stores the
    state at the event's own path. -/
theorem persist_best_effort (aok : Bool) (st : Event) (s : Store) :
    (persist_state aok st s).latest = some st ∧
    (aok = false → (persist_state aok st s).files = s.files) ∧
    (∀ f, st.eventFile = some f → f ≠ "" → aok = true →
      ((persist_state aok st s).files.lookup f) = some st) := by
  refine ⟨persist_state_latest aok st s, ?_, ?_⟩
  · intro haok
    subst haok
    unfold persist_state save_latest
    cases st.eventFile
    · rfl
    · simp
  · intro f hf hne haok
    subst haok
    unfold persist_state save_latest
    rw [hf]
    simp [hne]
    exact lookup_setFile f st s.files

/-- Witness for C7: a failing archival write leaves `files` empty but
    still updates the slot; a succeeding one also writes the archival
    record. -/
theorem persist_best_effort_witness :
    (persist_state false sampleWithFile ⟨none, []⟩).latest = some sampleWithFile ∧
    (persist_state false sampleWithFile ⟨none, []⟩).files = [] ∧
    ((persist_state true sampleWithFile ⟨none, []⟩).files.lookup "data/i_n.json")
      = some sampleWithFile :=
  ⟨(persist_best_effort false sampleWithFile ⟨none, []⟩).1,
   (persist_best_effort false sampleWithFile ⟨none, []⟩).2.1 rfl,
   (persist_best_effort true sampleWithFile ⟨none, []⟩).2.2 "data/i_n.json" rfl
     (by decide) rfl⟩

/-! ### Claims C2, C3 -/

/-- The state update a successful undo performs (the body of
    `handle_api_undo`'s success branch). -/
def undoneEvent (e : Event) : Event :=
  { e with
    drawnOrder := e.drawnOrder.dropLast
    currentNumber := e.drawnOrder.dropLast.getLast?
    currentLabel := e.drawnOrder.dropLast.getLast?.map bingo_label
    remainingCount := (make_remaining_set e.drawnOrder.dropLast).length }

theorem undo_step {s : Store} {e : Event} (aok : Bool)
    (hl : s.latest = some e) (hr : e.status = "running")
    (hne : e.drawnOrder.isEmpty = false) :
    handle_api_undo aok s =
      (persist_state aok (undoneEvent e) s, .ok (some (undoneEvent e))) := by
  simp only [handle_api_undo, hl, require_running_true hr, hne, if_true,
    Bool.false_eq_true, if_false, undoneEvent]

/-- C2 (amended): on a running event whose derived caches are
    consistent with `drawnOrder` (the spec's section 3 invariant), a
    successful draw followed by an undo restores `drawnOrder`,
    `currentNumber`, `currentLabel` and `remainingCount` to their exact
    pre-draw values. -/
theorem draw_undo_restores {s : Store} {e : Event} (c : Nat) (aok aok2 : Bool)
    (hl : s.latest = some e) (hr : e.status = "running")
    (hcc : CacheConsistent e)
    (hne : ¬ (make_remaining_set e.drawnOrder).isEmpty) :
    ∃ e1 e2, (handle_api_draw c aok s).2 = .ok (some e1) ∧
      (handle_api_undo aok2 (handle_api_draw c aok s).1).2 = .ok (some e2) ∧
      e2.drawnOrder = e.drawnOrder ∧ e2.currentNumber = e.currentNumber ∧
      e2.currentLabel = e.currentLabel ∧
      e2.remainingCount = e.remainingCount := by
  have heq := draw_step c aok hl hr hne
  have hl1 : (handle_api_draw c aok s).1.latest
      = some (drawnEvent e (drawPick e c)) := by
    rw [heq]
    exact persist_state_latest _ _ _
  have hr1 : (drawnEvent e (drawPick e c)).status = "running" := hr
  have hne1 : (drawnEvent e (drawPick e c)).drawnOrder.isEmpty = false := by
    simp [drawnEvent]
  have hundo := undo_step aok2 hl1 hr1 hne1
  have hdrop : (drawnEvent e (drawPick e c)).drawnOrder.dropLast = e.drawnOrder := by
    simp [drawnEvent]
  refine ⟨drawnEvent e (drawPick e c), undoneEvent (drawnEvent e (drawPick e c)),
    by rw [heq], by rw [hundo], ?_, ?_, ?_, ?_⟩
  · simp [undoneEvent, hdrop]
  · simp [undoneEvent, hdrop, hcc.1]
  · simp only [undoneEvent, hdrop]
    exact hcc.2.1.symm
  · simp only [undoneEvent, hdrop]
    exact hcc.2.2.symm

/-- Witness for C2's amended theorem: a fresh running event. -/
theorem draw_undo_restores_witness :
    (⟨some sampleRunning, []⟩ : Store).latest = some sampleRunning ∧
    sampleRunning.status = "running" ∧
    CacheConsistent sampleRunning ∧
    ¬ (make_remaining_set sampleRunning.drawnOrder).isEmpty ∧
    ∃ e1 e2,
      (handle_api_draw 0 true ⟨some sampleRunning, []⟩).2 = .ok (some e1) ∧
      (handle_api_undo true (handle_api_draw 0 true ⟨some sampleRunning, []⟩).1).2
        = .ok (some e2) ∧
      e2.drawnOrder = sampleRunning.drawnOrder ∧
      e2.currentNumber = sampleRunning.currentNumber ∧
      e2.currentLabel = sampleRunning.currentLabel ∧
      e2.remainingCount = sampleRunning.remainingCount :=
  ⟨rfl, rfl, ⟨rfl, rfl, by decide⟩, by decide,
   draw_undo_restores 0 true true rfl rfl ⟨rfl, rfl, by decide⟩ (by decide)⟩

/-- A running event whose cached `currentNumber`/`currentLabel` do not
    match its (empty) `drawnOrder`; such a state is storable via
    `POST /api/state`, which accepts any dict. -/
def inconsistentRunning : Event :=
  ⟨"i", "n", 0, none, "running", some "ts", none, some 5, some "B-5", [], 75, none⟩

/-- C2 counterexample: on `inconsistentRunning` (pre-draw
    `currentNumber = some 5`), a successful draw followed by undo
    yields `currentNumber = none`, not the pre-draw value — so draw
    then undo is not the identity on every running event. -/
theorem draw_undo_not_identity :
    inconsistentRunning.currentNumber = some 5 ∧
    (respState (handle_api_draw 0 true ⟨some inconsistentRunning, []⟩).2).isSome
      = true ∧
    (respState (handle_api_undo true
        (handle_api_draw 0 true ⟨some inconsistentRunning, []⟩).1).2).map
      Event.currentNumber = some none := by
  decide

/-- C3 (amended): after a successful draw on a running event whose
    `drawnOrder` satisfies the documented invariant (no duplicates, all
    entries in 1..75), the stored `remainingCount` equals
    `75 - len(drawnOrder)` and the remaining pool has exactly
    `remainingCount` elements. -/
theorem draw_remaining_count {s : Store} {e : Event} (c : Nat) (aok : Bool)
    (hl : s.latest = some e) (hr : e.status = "running")
    (hinv : DrawnInv e.drawnOrder)
    (hne : ¬ (make_remaining_set e.drawnOrder).isEmpty) :
    ∃ e1, (handle_api_draw c aok s).2 = .ok (some e1) ∧
      e1.remainingCount = 75 - e1.drawnOrder.length ∧
      (make_remaining_set e1.drawnOrder).length = e1.remainingCount := by
  have heq := draw_step c aok hl hr hne
  have hn := drawPick_mem c hne
  refine ⟨drawnEvent e (drawPick e c), by rw [heq], ?_, rfl⟩
  have hinv' : DrawnInv (e.drawnOrder ++ [drawPick e c]) := hinv.push hn
  have hlen := length_make_remaining_set hinv'
  simp only [drawnEvent]
  rw [hlen]

/-- Witness for C3's amended theorem: a fresh running event. -/
theorem draw_remaining_count_witness :
    (⟨some sampleRunning, []⟩ : Store).latest = some sampleRunning ∧
    sampleRunning.status = "running" ∧
    DrawnInv sampleRunning.drawnOrder ∧
    ¬ (make_remaining_set sampleRunning.drawnOrder).isEmpty ∧
    ∃ e1, (handle_api_draw 0 true ⟨some sampleRunning, []⟩).2 = .ok (some e1) ∧
      e1.remainingCount = 75 - e1.drawnOrder.length ∧
      (make_remaining_set e1.drawnOrder).length = e1.remainingCount :=
  ⟨rfl, rfl, ⟨List.nodup_nil, by simp [sampleRunning]⟩, by decide,
   draw_remaining_count 0 true rfl rfl
     ⟨List.nodup_nil, by simp [sampleRunning]⟩ (by decide)⟩

/-- A running event whose `drawnOrder` holds a duplicate; such a state
    is storable via `POST /api/state`. -/
def dupRunning : Event :=
  ⟨"i", "n", 0, none, "running", some "ts", none, some 3, some "B-3", [3, 3], 73, none⟩

/-- C3 counterexample: drawing on `dupRunning` (duplicate history
    `[3, 3]`) succeeds and stores `remainingCount = 73` while
    `75 - len(drawnOrder) = 72` — the claimed equation fails on a
    reachable state. -/
theorem draw_remaining_count_cex :
    (respState (handle_api_draw 0 true ⟨some dupRunning, []⟩).2).map
      (fun e => (e.remainingCount, 75 - e.drawnOrder.length)) = some (73, 72) := by
  decide

/-! ### Claim C8 -/

/-- C8: whenever a delete request on path `f` reports success and the
    current slot pointed at `f`, the resulting store has an empty
    current slot and no archival record at `f` — the slot never ends up
    referencing the deleted record, whatever the path-resolution oracle
    says. -/
theorem delete_clears_current (ro : String → Bool) (uo : Bool) (f : String)
    {s : Store} {st : Event} (hl : s.latest = some st)
    (hf : st.eventFile = some f)
    (hok : (handle_api_delete ro uo (some (.jstr f)) s).2 = .ok none) :
    (handle_api_delete ro uo (some (.jstr f)) s).1.latest = none ∧
    ((handle_api_delete ro uo (some (.jstr f)) s).1.files.lookup f) = none := by
  unfold handle_api_delete at hok ⊢
  by_cases h1 : f = ""
  · simp [h1] at hok
  · by_cases h2 : ro f
    · by_cases h3 : pathName f = "latest.json"
      · simp [h1, h2, h3] at hok
      · by_cases h4 : (s.files.lookup f).isNone
        · simp [h1, h2, h3, h4] at hok
        · by_cases huo : uo = true
          · simp [huo, h1, h2, h3, h4, hl, hf]
            intro a b _ hne h
            exact hne h.symm
          · simp [huo, h1, h2, h3, h4, hl, hf] at hok
    · simp [h1, h2] at hok

/-- The archival event used in the C8 witness. -/
def delEvent : Event :=
  ⟨"i", "n", 0, none, "ended", none, some "te", some 7, some "B-7", [7], 74,
   some "data/a.json"⟩

/-- The store for the C8 witness: latest points at `data/a.json`, and
    that archival record exists. -/
def delStore : Store := ⟨some delEvent, [("data/a.json", delEvent)]⟩

/-- Witness for C8: deleting the record the slot points to succeeds
    and clears both the slot and the record. -/
theorem delete_clears_current_witness :
    delStore.latest = some delEvent ∧
    delEvent.eventFile = some "data/a.json" ∧
    (handle_api_delete (fun _ => true) true
        (some (.jstr "data/a.json")) delStore).2 = .ok none ∧
    ((handle_api_delete (fun _ => true) true
        (some (.jstr "data/a.json")) delStore).1.latest = none ∧
      ((handle_api_delete (fun _ => true) true
        (some (.jstr "data/a.json")) delStore).1.files.lookup "data/a.json") = none) :=
  ⟨rfl, rfl, by decide,
   delete_clears_current (fun _ => true) true "data/a.json" rfl rfl (by decide)⟩

/-! ### Claim C9 -/

/-- C9 counterexample: `POST /api/state` accepts the empty JSON object
    — a state with none of the required Event fields — and proceeds to
    save it, so required fields are not validated. -/
theorem save_state_no_field_validation :
    handle_api_save_state (some (.jobj [])) = .ok (.jobj []) ∧
    specWellFormedEvent (.jobj []) = false :=
  ⟨rfl, rfl⟩

/-- C9 (amended): the only validation `POST /api/state` performs is
    that the caller-supplied state is a JSON object (a dict); a missing
    or non-object state is rejected with an error, and every object —
    well-formed Event or not — is accepted and written. -/
theorem save_state_requires_dict (b : Option JsonVal) :
    (∃ v, handle_api_save_state b = .ok v) ↔ (∃ fs, b = some (.jobj fs)) := by
  cases b with
  | none => simp [handle_api_save_state]
  | some v => cases v <;> simp [handle_api_save_state]

/-! ### Claim C10 -/

/-- C10 (amended): every event that `handle_api_new` actually creates
    has a non-negative `winnersTarget` and a non-empty `eventName`; a
    falsy `winnersTarget` (missing, null, 0, false, empty string) is
    treated as 0, a negative numeric one is clamped to 0, and an empty
    or whitespace-only name becomes "BingoEvent".  (A truthy
    non-numeric `winnersTarget` instead makes the request fail — see
    the counterexample.) -/
theorem new_event_normalizes :
    (∀ (id iso : String) (nm wt : Option JsonVal) (s : Store) (st : Event),
        respState (handle_api_new id iso nm wt s).2 = some st →
        0 ≤ st.winnersTarget ∧ st.eventName ≠ "") ∧
    (∀ (id iso : String) (nm : Option JsonVal) (v : JsonVal) (s : Store),
        pyTruthy v = false →
        (respState (handle_api_new id iso nm (some v) s).2).map
          Event.winnersTarget = some 0) ∧
    (∀ (id iso : String) (nm : Option JsonVal) (v : JsonVal) (w : Int) (s : Store),
        pyInt (pyOr v (.jnum 0)) = some w → w < 0 →
        (respState (handle_api_new id iso nm (some v) s).2).map
          Event.winnersTarget = some 0) ∧
    (∀ (id iso t : String) (wt : Option JsonVal) (s : Store) (st : Event),
        pyStrip t = "" →
        respState (handle_api_new id iso (some (.jstr t)) wt s).2 = some st →
        st.eventName = "BingoEvent") := by
  refine ⟨?_, ?_, ?_, ?_⟩
  · intro id iso nm wt s st h
    unfold handle_api_new at h
    cases hpy : pyInt (pyOr (wt.getD (.jnum 0)) (.jnum 0)) with
    | none => rw [hpy] at h; simp [respState] at h
    | some w =>
        rw [hpy] at h
        simp [respState, new_event] at h
        subst h
        constructor
        · simp only []
          split_ifs <;> omega
        · simp only []
          split_ifs with hname
          · decide
          · exact hname
  · intro id iso nm v s hfal
    have hor : pyOr v (.jnum 0) = .jnum 0 := by simp [pyOr, hfal]
    simp [handle_api_new, hor, pyInt, new_event, respState]
  · intro id iso nm v w s hpy hw
    simp only [handle_api_new, Option.getD_some, hpy]
    simp [respState, new_event, if_pos hw]
  · intro id iso t wt s st htrim h
    unfold handle_api_new at h
    cases hpy : pyInt (pyOr (wt.getD (.jnum 0)) (.jnum 0)) with
    | none => rw [hpy] at h; simp [respState] at h
    | some w =>
        rw [hpy] at h
        simp [respState, new_event] at h
        subst h
        simp [pyStr, htrim]

/-- Witness for C10's amended theorem: a null `winnersTarget` yields 0,
    and a negative one (-5) is clamped to 0. -/
theorem new_event_normalizes_witness :
    pyTruthy JsonVal.jnull = false ∧
    (respState (handle_api_new "i" "t" none (some .jnull) ⟨none, []⟩).2).map
      Event.winnersTarget = some 0 ∧
    pyInt (pyOr (JsonVal.jnum (-5)) (.jnum 0)) = some (-5) ∧
    (respState (handle_api_new "i" "t" none (some (.jnum (-5))) ⟨none, []⟩).2).map
      Event.winnersTarget = some 0 :=
  ⟨rfl,
   new_event_normalizes.2.1 "i" "t" none .jnull ⟨none, []⟩ rfl,
   by decide,
   new_event_normalizes.2.2.1 "i" "t" none (.jnum (-5)) (-5) ⟨none, []⟩
     (by decide) (by decide)⟩

/-- C10 counterexample: a truthy non-numeric `winnersTarget` (the
    string "abc") is not replaced by 0 — `int("abc")` raises, the
    request dies with an uncaught exception and no event is created. -/
theorem new_nonnumeric_winners_raises :
    handle_api_new "i" "t" (some (.jstr "Party")) (some (.jstr "abc")) ⟨none, []⟩
      = (⟨none, []⟩, .exn) := by
  decide
